/-
Verification of the tool-gating core of the TrueNAS MCP HTTP server
(`truenas_mcp_server/http_api/`): the task-type / resource / security
filter chain, the context-budget estimator, the keyword intent
classifier, and the protocol handler's per-session tool cache.

Python dictionaries are modelled as insertion-ordered association lists
with unique keys (`Dict β`); Python string truthiness (`None` and `""`
are falsy) is modelled explicitly.  JSON serialization and the optional
`tiktoken` tokenizer are external libraries; context-size estimation is
therefore parameterized by an abstract per-tool size function where the
source calls them.  String lowering is modelled with Lean's ASCII
`String.toLower`; every string the claims touch is ASCII.
-/
import Mathlib

set_option maxHeartbeats 1000000

/-- Insertion-ordered string-keyed map, the model of a Python `dict`. -/
abbrev Dict (β : Type) := List (String × β)

/-- `dict` lookup: first (unique) matching key. -/
def dlookup {β : Type} : Dict β → String → Option β
  | [], _ => none
  | (k, v) :: t, key => if k == key then some v else dlookup t key

/-- `key in dict` membership test. -/
def dmem {β : Type} (d : Dict β) (key : String) : Bool :=
  (dlookup d key).isSome

/-- `dict[key] = v`: replace in place when the key exists (Python keeps the
original position), append otherwise. -/
def dinsert {β : Type} : Dict β → String → β → Dict β
  | [], key, v => [(key, v)]
  | (k, v') :: t, key, v =>
    if k == key then (k, v) :: t else (k, v') :: dinsert t key v

/-- Python truthiness of an optional string: `None` and `""` are falsy. -/
def strTruthy : Option String → Bool
  | none => false
  | some s => !(s == "")

/-- Python truthiness of an optional list: `None` and `[]` are falsy. -/
def listOptTruthy {α : Type} : Option (List α) → Bool
  | some (_ :: _) => true
  | _ => false

/-- `tool_gating.Tool`: metadata for one MCP tool.  The two JSON-schema
payload fields (`request_schema`, `response_schema`) are opaque data never
read by the gating logic modelled here and are omitted. -/
structure Tool where
  name : String
  description : String
  method : String
  path : String
  task_types : List String
  priority : Int := 0
  required_scopes : Option (List String) := none
  deriving DecidableEq

/-- `tool_gating.FilterContext`: per-request filtering inputs.
`detected_task_types = none` means the classifier did not run; `some []`
means it ran and found nothing.  The `intent_confidence` field is unused
by every code path modelled here and is omitted. -/
structure FilterContext where
  task_type : Option String := none
  client_id : Option String := none
  session_id : Option String := none
  request_id : String
  query : Option String := none
  detected_task_types : Option (List String) := none
  deriving DecidableEq

/-- `settings.HttpServerSettings.intent_precedence` values. -/
inductive Precedence where
  | intent
  | explicitP
  deriving DecidableEq

/-- The process-wide flags of `settings.HttpServerSettings` consumed by the
gating core (environment parsing is out of scope). -/
structure HttpServerSettings where
  intent_classification_enabled : Bool
  intent_fallback_to_all : Bool
  intent_precedence : Precedence
  strict_context_limit : Bool
  default_max_tools : Nat

/-- Python `str.lower()` (ASCII model). -/
def pyLower (s : String) : String :=
  ⟨s.data.map Char.toLower⟩

/-- Python `str.strip()`: drop whitespace from both ends (ASCII model). -/
def pyStrip (s : String) : String :=
  ⟨((s.data.dropWhile Char.isWhitespace).reverse.dropWhile
      Char.isWhitespace).reverse⟩

/-- One fuelled left-to-right pass of Python `str.replace`: at each position
replace a non-overlapping occurrence of `pattern` or keep the character.
The fuel (instantiated with the input length) bounds the number of steps;
each step consumes at least one character, so the fuel never runs out. -/
def replaceFuel (pattern replacement : List Char) :
    Nat → List Char → List Char
  | 0, l => l
  | fuel + 1, l =>
    match l with
    | [] => []
    | c :: rest =>
      if pattern.isPrefixOf (c :: rest) then
        replacement
          ++ replaceFuel pattern replacement fuel
              (List.drop (pattern.length - 1) rest)
      else c :: replaceFuel pattern replacement fuel rest

/-- Python `s.replace(pattern, replacement)` for the non-empty literal
patterns (`"-"`, `"_"`) the source uses. -/
def pyReplace (s pattern replacement : String) : String :=
  if pattern.data.isEmpty then s
  else ⟨replaceFuel pattern.data replacement.data s.data.length s.data⟩

/-- Python `s.endswith(suffix)`. -/
def pyEndsWith (s suffix : String) : Bool :=
  suffix.data.isSuffixOf s.data

/-- Python `s[:-n]` for `0 < n ≤ len(s)`. -/
def pyDropRight (s : String) (n : Nat) : String :=
  ⟨s.data.take (s.data.length - n)⟩

/-- `TaskTypeFilter._normalize_key`: `None`/empty → `None`, else
strip-and-lowercase, and `None` again if that leaves nothing. -/
def normalize_key : Option String → Option String
  | none => none
  | some v =>
    if v == "" then none
    else
      let n := pyLower (pyStrip v)
      if n == "" then none else some n

/-- `TaskTypeFilter._alias_candidates`: drop a trailing `-ops`, replace
hyphens with underscores, and drop underscores.  The source returns a
`set`; only membership is ever consulted, so a list is faithful. -/
def alias_candidates (canonical : String) : List String :=
  let l₁ :=
    if pyEndsWith canonical "-ops" then
      let trimmed := pyDropRight canonical 4
      if trimmed == "" then [] else [trimmed]
    else []
  let hyphen_to_underscore := pyReplace canonical "-" "_"
  let l₂ :=
    if !(hyphen_to_underscore == "") && !(hyphen_to_underscore == canonical) then
      [hyphen_to_underscore]
    else []
  let compact := pyReplace hyphen_to_underscore "_" ""
  let l₃ :=
    if !(compact == "") && !(compact == canonical) then [compact] else []
  l₁ ++ l₂ ++ l₃

/-- `TaskTypeFilter._expand_allowlists`: canonicalize every configured key,
then record alias → canonical entries; aliases never shadow a canonical
key or an earlier alias. -/
def expand_allowlists (cfg : Dict (List String)) :
    Dict (List String) × Dict String :=
  let normalized := cfg.foldl
    (fun acc kv =>
      match normalize_key (some kv.1) with
      | none => acc
      | some canonical => dinsert acc canonical kv.2) []
  let alias_map := normalized.foldl
    (fun amap kv =>
      (alias_candidates kv.1).foldl
        (fun am al =>
          if dmem normalized al || dmem am al then am
          else dinsert am al kv.1) amap) []
  (normalized, alias_map)

/-- `tool_gating.TaskTypeFilter`: the constructed allowlist table and alias map. -/
structure TaskTypeFilter where
  task_type_allowlists : Dict (List String)
  alias_map : Dict String

/-- `TaskTypeFilter.__init__`. -/
def TaskTypeFilter.ofConfig (cfg : Dict (List String)) : TaskTypeFilter :=
  let p := expand_allowlists cfg
  ⟨p.1, p.2⟩

/-- `TaskTypeFilter._normalize_task_types`: canonicalize each label, resolve
through direct match then alias lookup, silently dropping the rest. -/
def TaskTypeFilter.normalize_task_types (f : TaskTypeFilter)
    (task_types : List String) : List String :=
  task_types.filterMap fun task_type =>
    match normalize_key (some task_type) with
    | none => none
    | some key =>
      if dmem f.task_type_allowlists key then some key
      else dlookup f.alias_map key

/-- `TaskTypeFilter._merge_allowlists`: union of the allowlist entries of the
resolved labels.  The source builds a `set` consulted only for emptiness and
membership, so a concatenation is faithful. -/
def TaskTypeFilter.merge_allowlists (f : TaskTypeFilter)
    (task_types : List String) : List String :=
  task_types.foldl
    (fun merged task_type =>
      merged ++ ((dlookup f.task_type_allowlists task_type).getD [])) []

/-- The strict no-match short-circuit condition at the top of
`TaskTypeFilter.apply`: a query was supplied, classification ran and
returned `[]`, and policy forbids guessing. -/
def strictNoMatch (st : HttpServerSettings) (context : FilterContext) : Bool :=
  context.query.isSome
    && context.detected_task_types == some []
    && (st.strict_context_limit || !st.intent_fallback_to_all)

/-- The precedence resolution of `TaskTypeFilter.apply` (its
`task_types_to_use` before normalization): under `intent` precedence
non-empty `detected_task_types` beat the explicit `task_type`, under
`explicit` precedence the other way round. -/
def selectTaskTypes (st : HttpServerSettings) (context : FilterContext) :
    List String :=
  match st.intent_precedence with
  | .intent =>
    if listOptTruthy context.detected_task_types then
      context.detected_task_types.getD []
    else if strTruthy context.task_type then [context.task_type.getD ""]
    else []
  | .explicitP =>
    if strTruthy context.task_type then [context.task_type.getD ""]
    else if listOptTruthy context.detected_task_types then
      context.detected_task_types.getD []
    else []

/-- `TaskTypeFilter.apply`. -/
def TaskTypeFilter.apply (f : TaskTypeFilter) (st : HttpServerSettings)
    (tools : Dict Tool) (context : FilterContext) : Dict Tool :=
  if strictNoMatch st context then []
  else
    let task_types_to_use :=
      f.normalize_task_types (selectTaskTypes st context)
    if task_types_to_use == [] then
      tools.filter fun kv => !(kv.2.task_types.contains "meta-ops")
    else
      let merged_allowlist := f.merge_allowlists task_types_to_use
      if merged_allowlist == [] then
        if st.strict_context_limit || !st.intent_fallback_to_all then []
        else tools
      else
        tools.filter fun kv =>
          merged_allowlist.contains kv.1
            && task_types_to_use.any fun t => kv.2.task_types.contains t

/-- Strict lexicographic comparison of strings by code point, Python's
`<` on `str`. -/
def charListLt : List Char → List Char → Bool
  | [], [] => false
  | [], _ :: _ => true
  | _ :: _, [] => false
  | a :: as, b :: bs =>
    if a.toNat < b.toNat then true
    else if b.toNat < a.toNat then false
    else charListLt as bs

/-- The Python sort key of `ResourceFilter.apply`,
`lambda item: (-item[1].priority, item[0])`, as a total boolean order:
descending priority, ties broken by ascending (code-point) name. -/
def resourceLe (a b : String × Tool) : Bool :=
  decide (b.2.priority < a.2.priority)
    || (decide (a.2.priority = b.2.priority)
          && (charListLt a.1.data b.1.data || a.1 == b.1))

/-- Insert `a` into an already sorted list, before the first element it
compares `le` to: with later-arriving elements inserted by `foldr`, equal
elements keep their original relative order, as in Python's stable
`sorted`. -/
def insertLe {α : Type} (le : α → α → Bool) (a : α) : List α → List α
  | [] => [a]
  | b :: t => if le a b then a :: b :: t else b :: insertLe le a t

/-- Stable sort by the boolean order `le`, the model of Python's
`sorted(..., key=...)`. -/
def stableSortBy {α : Type} (le : α → α → Bool) : List α → List α
  | [] => []
  | a :: t => insertLe le a (stableSortBy le t)

/-- `tool_gating.ResourceFilter`. -/
structure ResourceFilter where
  max_tools : Nat

/-- `ResourceFilter.apply`: a no-op when within the cap, else the first
`max_tools` entries of the stable sort by `resourceLe`. -/
def ResourceFilter.apply (f : ResourceFilter) (tools : Dict Tool) : Dict Tool :=
  if tools.length ≤ f.max_tools then tools
  else (stableSortBy resourceLe tools).take f.max_tools

/-- `tool_gating.SecurityFilter`: the source stores the blocklist as a `set`
consulted only for membership, so a list is faithful. -/
structure SecurityFilter where
  blocklist : List String

/-- `SecurityFilter.apply`. -/
def SecurityFilter.apply (f : SecurityFilter) (tools : Dict Tool) : Dict Tool :=
  tools.filter fun kv => !(f.blocklist.contains kv.1)

/-- `tool_gating.FilterConfig`.  `max_tools` is a Python int read through the
truthiness fallback `config.max_tools or http_settings.default_max_tools`;
negative caps never arise, so `Nat` is faithful. -/
structure FilterConfig where
  task_type_allowlists : Dict (List String)
  max_tools : Nat
  blocklist : List String

/-- `tool_gating.ToolGateController` state: catalog, config, the precomputed
per-tool size table and the active estimator mode. -/
structure ToolGateController where
  all_tools : Dict Tool
  config : FilterConfig
  tool_sizes : Dict Nat
  estimator_type : String

/-- `ToolGateController.__init__` with `_precompute_tool_sizes`: the size of
each serialized tool is abstracted by `sizeOf_tool` (the source uses
`tiktoken` when importable, else `len(json.dumps(...)) // 4`);
`tiktoken_available` selects which estimator label is recorded.  Either way
`estimator_type` is never the string `"fallback"` tested in
`get_context_size`. -/
def ToolGateController.mk' (all_tools : Dict Tool) (config : FilterConfig)
    (tiktoken_available : Bool) (sizeOf_tool : Tool → Nat) :
    ToolGateController :=
  { all_tools := all_tools
    config := config
    tool_sizes := all_tools.map fun kv => (kv.1, sizeOf_tool kv.2)
    estimator_type := if tiktoken_available then "tiktoken" else "approx" }

/-- The filter pipeline built in `ToolGateController.__init__`
(`config.max_tools or http_settings.default_max_tools`: a zero cap is falsy
and falls back to the default). -/
def ToolGateController.resourceCap (c : ToolGateController)
    (st : HttpServerSettings) : Nat :=
  if c.config.max_tools == 0 then st.default_max_tools else c.config.max_tools

/-- `ToolGateController.get_available_tools`: the fixed pipeline
TaskTypeFilter → ResourceFilter → SecurityFilter, recording the name of each
filter whose output differs from its input.  The source compares Python
dicts (unordered map equality); every stage outputs either its input itself
or a strict reselection of it, so list equality over unique keys
coincides with it. -/
def ToolGateController.get_available_tools (c : ToolGateController)
    (st : HttpServerSettings) (context : FilterContext) :
    Dict Tool × List String :=
  let ttf := TaskTypeFilter.ofConfig c.config.task_type_allowlists
  let t0 := c.all_tools
  let t1 := ttf.apply st t0 context
  let a1 : List String := if t1 = t0 then [] else ["TaskTypeFilter"]
  let t2 := ResourceFilter.apply ⟨c.resourceCap st⟩ t1
  let a2 := if t2 = t1 then a1 else a1 ++ ["ResourceFilter"]
  let t3 := SecurityFilter.apply ⟨c.config.blocklist⟩ t2
  let a3 := if t3 = t2 then a2 else a2 ++ ["SecurityFilter"]
  (t3, a3)

/-- The token count computed inside `ToolGateController.get_context_size`:
the sum of the precomputed per-tool sizes (absent names count 0) when the
table is non-empty and the estimator is not in `"fallback"` mode; otherwise
a from-scratch estimate of the serialized subset, abstracted here as
`serialize_estimate` (the source shells out to `json.dumps` and optionally
`tiktoken`). -/
def ToolGateController.token_count (c : ToolGateController)
    (serialize_estimate : Dict Tool → Nat) (tools : Dict Tool) : Nat :=
  if !c.tool_sizes.isEmpty && !(c.estimator_type == "fallback") then
    (tools.map fun kv => (dlookup c.tool_sizes kv.1).getD 0).foldl (· + ·) 0
  else serialize_estimate tools

/-- `ToolGateController.get_context_size`: resolve the enforcement flag
(argument wins, else the process `strict_context_limit`), compute the token
count, raise `ValueError` past the fixed 7600 hard cap under enforcement,
otherwise return the count (the 5000 advisory threshold only logs). -/
def ToolGateController.get_context_size (c : ToolGateController)
    (st : HttpServerSettings) (serialize_estimate : Dict Tool → Nat)
    (tools : Dict Tool) (enforce_hard_limit : Option Bool) :
    Except String Nat :=
  let enforce := enforce_hard_limit.getD st.strict_context_limit
  let token_count := c.token_count serialize_estimate tools
  if 7600 < token_count && enforce then
    Except.error "Context size exceeds hard limit of 7600 tokens"
  else Except.ok token_count

/-- Python's substring containment `needle in hay` on character lists:
`needle` is a prefix of some suffix of `hay` (the empty needle is contained
in everything, as in Python). -/
def containsSub (hay needle : List Char) : Bool :=
  match hay with
  | [] => needle.isEmpty
  | c :: rest => needle.isPrefixOf (c :: rest) || containsSub rest needle

/-- `intent_classifier.KeywordIntentClassifier.classify_intent`: lower the
query and return, in mapping order, every task type one of whose keywords is
a literal substring of the lowered query. -/
def classify_intent (keyword_mappings : Dict (List String)) (query : String) :
    List String :=
  let lowered := pyLower query
  (keyword_mappings.filter fun kv =>
      kv.2.any fun keyword => containsSub lowered.toList keyword.toList).map
    Prod.fst

/-- The standard JSON-RPC error codes of `jsonrpc_models.JSONRPCError`. -/
def METHOD_NOT_FOUND : Int := -32601

/-- `jsonrpc_models.JSONRPCError.INVALID_PARAMS`. -/
def INVALID_PARAMS : Int := -32602

/-- The scope-enforcement step of `TrueNASHTTPMCP.handle_tools_list`: when
the caller's scope set is non-empty and lacks `admin`, keep only tools whose
effective scopes (`required_scopes or task_types`, Python truthiness: `None`
and `[]` both fall back) intersect the caller's scopes. -/
def scopeFilterStep (scopes : List String) (tools : Dict Tool) : Dict Tool :=
  if !scopes.isEmpty && !scopes.contains "admin" then
    tools.filter fun kv =>
      let effective :=
        match kv.2.required_scopes with
        | some l => if l.isEmpty then kv.2.task_types else l
        | none => kv.2.task_types
      effective.any fun scope => scopes.contains scope
  else tools

/-- The effective required scopes of a tool in
`TrueNASHTTPMCP.handle_tools_call` (`required_scopes or task_types`). -/
def Tool.effective_scopes (tool : Tool) : List String :=
  match tool.required_scopes with
  | some l => if l.isEmpty then tool.task_types else l
  | none => tool.task_types

/-- The result of the `tools/list` handler: the filtered-and-cached catalog
together with the updated session map, and the context-size computation
which can raise under strict enforcement (the cache write happens before
that call in the source, so it survives a raise). -/
structure ToolsListResult where
  filtered : Dict Tool
  session_tools : Dict (Dict Tool)
  context_size : Except String Nat

/-- `TrueNASHTTPMCP.handle_tools_list`: resolve the explicit task type
(`task_type_header or params.get("task_type")`), run the classifier when a
truthy query is present, a classifier is configured and classification is
enabled (discarding the explicit label under `intent` precedence), build the
`FilterContext`, run the gate controller, apply scope enforcement, overwrite
the session cache, and compute the context size.  The classifier is
`KeywordIntentClassifier` with the given mappings (`none` = no classifier
configured). -/
def handle_tools_list (st : HttpServerSettings) (c : ToolGateController)
    (classifier : Option (Dict (List String)))
    (serialize_estimate : Dict Tool → Nat)
    (params_task_type : Option String) (params_query : Option String)
    (request_id session_id : String) (scopes : List String)
    (task_type_header : Option String)
    (session_tools : Dict (Dict Tool)) : ToolsListResult :=
  let task_type0 :=
    if strTruthy task_type_header then task_type_header else params_task_type
  let run_classifier :=
    strTruthy params_query && classifier.isSome
      && st.intent_classification_enabled
  let detected_task_types :=
    if run_classifier then
      some (classify_intent (classifier.getD []) (params_query.getD ""))
    else none
  let task_type :=
    if run_classifier && st.intent_precedence == .intent then none
    else task_type0
  let context : FilterContext :=
    { task_type := task_type
      client_id := none
      session_id := some session_id
      request_id := request_id
      query := params_query
      detected_task_types := detected_task_types }
  let filtered0 := (c.get_available_tools st context).1
  let filtered := scopeFilterStep scopes filtered0
  let session_tools' := dinsert session_tools session_id filtered
  { filtered := filtered
    session_tools := session_tools'
    context_size := c.get_context_size st serialize_estimate filtered none }

/-- Outcome of the availability stage of `tools/call`: missing name,
method-not-found, or the resolved tool proceeding toward scope check and
dispatch. -/
inductive CallOutcome where
  | invalid : Int → CallOutcome
  | not_found : Int → CallOutcome
  | proceeds : Tool → CallOutcome
  deriving DecidableEq

/-- The availability stage of `TrueNASHTTPMCP.handle_tools_call` (through
the visible-set membership test): the effective visible set is
`self.session_tools.get(session_id) or self.tool_registry.get_all_tools()`
— Python truthiness, so an *empty* cached set also falls back to the full
registry — and an unknown tool name yields `METHOD_NOT_FOUND`. -/
def handle_tools_call_availability (session_tools : Dict (Dict Tool))
    (registry_all : Dict Tool) (session_id : String)
    (params_name : Option String) : CallOutcome :=
  match params_name with
  | none => .invalid INVALID_PARAMS
  | some tool_name =>
    let session_filtered :=
      match dlookup session_tools session_id with
      | some ts => if ts.isEmpty then registry_all else ts
      | none => registry_all
    match dlookup session_filtered tool_name with
    | none => .not_found METHOD_NOT_FOUND
    | some tool => .proceeds tool

/-! Concrete fixtures for the witness and counterexample theorems, mirroring
the repository's unit tests (`tests/unit/test_tool_gating.py`) and the
spec's worked examples. -/

/-- A tool as built by `tests/unit/test_tool_gating.py::_make_tool`. -/
def mkTool (name : String) (tts : List String) (pri : Int := 0) : Tool :=
  { name := name
    description := name ++ " description"
    method := "rpc"
    path := "/tools/" ++ name
    task_types := tts
    priority := pri }

/-- The source's default settings (`INTENT_CLASSIFICATION_ENABLED=true`,
`INTENT_FALLBACK_TO_ALL=true`, `INTENT_PRECEDENCE=intent`,
`STRICT_CONTEXT_LIMIT=false`, `MCP_MAX_TOOLS=12`). -/
def stDefault : HttpServerSettings :=
  { intent_classification_enabled := true
    intent_fallback_to_all := true
    intent_precedence := .intent
    strict_context_limit := false
    default_max_tools := 12 }

/-- Default settings with `STRICT_CONTEXT_LIMIT=true`. -/
def stStrict : HttpServerSettings :=
  { stDefault with strict_context_limit := true }

/-- The two-tool catalog of the repository's unit tests. -/
def twoTools : Dict Tool :=
  [("list_pools", mkTool "list_pools" ["storage-ops"]),
   ("create_user", mkTool "create_user" ["user-ops"])]

/-- `twoTools` plus a meta-tagged introspection tool. -/
def threeTools : Dict Tool :=
  twoTools ++ [("list_tools", mkTool "list_tools" ["meta-ops"])]

/-- The unit tests' allowlist `{"storage-ops": ["list_pools"]}`. -/
def cfgStorage : Dict (List String) :=
  [("storage-ops", ["list_pools"])]

/-- A one-entry keyword mapping: `storage-ops ⇐ {pool}`. -/
def mappingsPool : Dict (List String) :=
  [("storage-ops", ["pool"])]

/-- A gate controller over `twoTools` with the storage allowlist, no
blocklist, a zero `max_tools` (falling back to the default cap), no
tiktoken, and 10 units per serialized tool. -/
def gateTwo : ToolGateController :=
  ToolGateController.mk' twoTools
    { task_type_allowlists := cfgStorage, max_tools := 0, blocklist := [] }
    false (fun _ => 10)

/-- The spec's resource-cap example: five tools named `a`..`e` with
priorities `[3, 1, 3, 0, 2]`. -/
def fiveTools : Dict Tool :=
  [("a", mkTool "a" ["x-ops"] 3), ("b", mkTool "b" ["x-ops"] 1),
   ("c", mkTool "c" ["x-ops"] 3), ("d", mkTool "d" ["x-ops"] 0),
   ("e", mkTool "e" ["x-ops"] 2)]

/-- A `tools/list` run for session `"S"` under strict policy whose query
`"xyz-no-match"` classifies to `[]`: the strict no-match short-circuit makes
it store the *empty* tool set for `"S"`. -/
def strictNoMatchRun : ToolsListResult :=
  handle_tools_list stStrict gateTwo (some mappingsPool) (fun _ => 0)
    none (some "xyz-no-match") "req-1" "S" [] none []

/-- A `tools/list` run under default (fallback) policy whose query
classifies to `[]` while the `X-Task-Type` header carries the resolvable
label `"storage-ops"`. -/
def headerWithEmptyClassification : ToolsListResult :=
  handle_tools_list stDefault gateTwo (some mappingsPool) (fun _ => 0)
    none (some "xyz-no-match") "req-2" "S" [] (some "storage-ops") []



/-! Helper lemmas. -/

/-- Looking a key up in a table built by mapping the values of an
association list is looking it up in the original list and mapping. -/
theorem dlookup_map_val {β γ : Type} (g : β → γ) :
    ∀ (l : List (String × β)) (k : String),
      dlookup (l.map fun kv => (kv.1, g kv.2)) k = (dlookup l k).map g
  | [], _ => rfl
  | (k', v) :: t, k => by
    by_cases h : (k' == k) = true
    · simp [dlookup, h]
    · simp only [List.map, dlookup, h, if_false, Bool.false_eq_true]
      exact dlookup_map_val g t k

/-- A left fold of `+` over a list of zeros returns the accumulator. -/
theorem foldl_add_zeros :
    ∀ (l : List Nat) (a : Nat), (∀ x ∈ l, x = 0) → l.foldl (· + ·) a = a
  | [], _, _ => rfl
  | x :: t, a, h => by
    have hx : x = 0 := h x (by simp)
    have ht : t.foldl (· + ·) a = a :=
      foldl_add_zeros t a fun y hy => h y (by simp [hy])
    simpa [hx] using ht

/-- C2: for every catalog and every `FilterContext` with a non-`None` query
and `detected_task_types = []` (classifier ran, found nothing), if the
strict-context-limit flag is set or the intent-fallback-to-all flag is
unset, `TaskTypeFilter.apply` returns the empty tool set, regardless of the
catalog, the explicit `task_type`, and the configured allowlists. -/
theorem c2_strict_no_match (cfg : Dict (List String))
    (st : HttpServerSettings) (tools : Dict Tool) (context : FilterContext)
    (hq : context.query ≠ none)
    (hd : context.detected_task_types = some [])
    (hp : st.strict_context_limit = true ∨ st.intent_fallback_to_all = false) :
    (TaskTypeFilter.ofConfig cfg).apply st tools context = [] := by
  have hsc : strictNoMatch st context = true := by
    unfold strictNoMatch
    rw [hd]
    cases hq' : context.query with
    | none => exact absurd hq' hq
    | some q => rcases hp with h | h <;> simp [h]
  simp [TaskTypeFilter.apply, hsc]

/-- C2 witness: the strict no-match scenario of the spec's test list. -/
theorem c2_strict_no_match_witness :
    (TaskTypeFilter.ofConfig cfgStorage).apply stStrict twoTools
      { request_id := "req-4", query := some "xyz-no-match",
        detected_task_types := some [] } = [] :=
  c2_strict_no_match cfgStorage stStrict twoTools
    { request_id := "req-4", query := some "xyz-no-match",
      detected_task_types := some [] }
    (by decide) rfl (Or.inl rfl)

/-- C7: `get_context_size` raises if and only if the estimated token count
exceeds the fixed 7600 hard cap and hard-limit enforcement is active (the
explicit argument, or the process strict-context-limit flag when the
argument is omitted); whenever enforcement does not trigger — in particular
past the fixed 5000 advisory threshold — it returns the count without
raising. -/
theorem c7_context_budget (c : ToolGateController) (st : HttpServerSettings)
    (serialize_estimate : Dict Tool → Nat) (tools : Dict Tool)
    (enforce_hard_limit : Option Bool) :
    ((∃ msg, c.get_context_size st serialize_estimate tools enforce_hard_limit
          = Except.error msg)
        ↔ 7600 < c.token_count serialize_estimate tools
            ∧ enforce_hard_limit.getD st.strict_context_limit = true)
    ∧ (5000 < c.token_count serialize_estimate tools →
        ¬(7600 < c.token_count serialize_estimate tools
            ∧ enforce_hard_limit.getD st.strict_context_limit = true) →
        c.get_context_size st serialize_estimate tools enforce_hard_limit
          = Except.ok (c.token_count serialize_estimate tools)) := by
  unfold ToolGateController.get_context_size
  by_cases h : 7600 < c.token_count serialize_estimate tools
      ∧ enforce_hard_limit.getD st.strict_context_limit = true
  · rcases h with ⟨h1, h2⟩
    constructor
    · simp [h1, h2]
    · intro _ hcon
      exact absurd ⟨h1, h2⟩ hcon
  · have hb : ¬(7600 < c.token_count serialize_estimate tools
        ∧ (enforce_hard_limit.getD st.strict_context_limit) = true) := h
    constructor
    · constructor
      · intro ⟨msg, hmsg⟩
        by_cases h1 : 7600 < c.token_count serialize_estimate tools
        · by_cases h2 : enforce_hard_limit.getD st.strict_context_limit = true
          · exact ⟨h1, h2⟩
          · simp [h1, h2] at hmsg
        · simp [h1] at hmsg
      · intro hcon
        exact absurd hcon hb
    · intro _ _
      by_cases h1 : 7600 < c.token_count serialize_estimate tools
      · by_cases h2 : enforce_hard_limit.getD st.strict_context_limit = true
        · exact absurd ⟨h1, h2⟩ hb
        · simp [h1, h2]
      · simp [h1]

/-- C7 witness: a two-tool set at 4000 units per tool (8000 total, past
both thresholds) returns its count without raising when enforcement is
off. -/
theorem c7_context_budget_witness :
    5000 < (ToolGateController.mk' twoTools
        { task_type_allowlists := [], max_tools := 0, blocklist := [] }
        false (fun _ => 4000)).token_count (fun _ => 0) twoTools
    ∧ (ToolGateController.mk' twoTools
        { task_type_allowlists := [], max_tools := 0, blocklist := [] }
        false (fun _ => 4000)).get_context_size stDefault (fun _ => 0)
          twoTools none = Except.ok 8000 :=
  ⟨by decide,
   (c7_context_budget (ToolGateController.mk' twoTools
        { task_type_allowlists := [], max_tools := 0, blocklist := [] }
        false (fun _ => 4000)) stDefault (fun _ => 0) twoTools none).2
     (by decide) (by decide)⟩

/-- C10: when the gate controller's precomputed size table is non-empty,
`get_context_size` charges each requested name its precomputed size — the
size of its catalog entry, or 0 when the name was absent from the catalog
at construction — never re-serializes the requested subset (the result is
independent of the from-scratch estimator), and in particular returns 0
without raising for a request whose names were all absent from the
catalog. -/
theorem c10_precomputed_sum (all_tools : Dict Tool) (config : FilterConfig)
    (tik : Bool) (sizeOf_tool : Tool → Nat) (st : HttpServerSettings)
    (ser : Dict Tool → Nat) (tools : Dict Tool) (enforce : Option Bool)
    (c : ToolGateController)
    (hc : c = ToolGateController.mk' all_tools config tik sizeOf_tool)
    (hne : all_tools ≠ []) :
    (c.token_count ser tools
        = (tools.map fun kv =>
            ((dlookup all_tools kv.1).map sizeOf_tool).getD 0).foldl (· + ·) 0)
    ∧ (∀ ser₂, c.get_context_size st ser tools enforce
        = c.get_context_size st ser₂ tools enforce)
    ∧ ((∀ kv ∈ tools, dlookup all_tools kv.1 = none) →
        c.get_context_size st ser tools enforce = Except.ok 0) := by
  subst hc
  have hsizes : (ToolGateController.mk' all_tools config tik
      sizeOf_tool).tool_sizes = all_tools.map fun kv => (kv.1, sizeOf_tool kv.2) := rfl
  have hnonempty : ((ToolGateController.mk' all_tools config tik
      sizeOf_tool).tool_sizes).isEmpty = false := by
    rw [hsizes]
    cases all_tools with
    | nil => exact absurd rfl hne
    | cons kv t => simp [List.isEmpty]
  have hest : ((ToolGateController.mk' all_tools config tik
      sizeOf_tool).estimator_type == "fallback") = false := by
    cases tik <;> rfl
  have htc : ∀ ser' : Dict Tool → Nat,
      (ToolGateController.mk' all_tools config tik sizeOf_tool).token_count ser' tools
        = (tools.map fun kv =>
            ((dlookup all_tools kv.1).map sizeOf_tool).getD 0).foldl (· + ·) 0 := by
    intro ser'
    unfold ToolGateController.token_count
    rw [hnonempty, hest]
    simp only [Bool.not_false, Bool.and_self, if_true]
    have : (tools.map fun kv =>
        (dlookup ((ToolGateController.mk' all_tools config tik
          sizeOf_tool).tool_sizes) kv.1).getD 0)
        = tools.map fun kv =>
            ((dlookup all_tools kv.1).map sizeOf_tool).getD 0 := by
      rw [hsizes]
      exact List.map_congr_left fun kv _ => by rw [dlookup_map_val]
    rw [this]
  refine ⟨htc ser, ?_, ?_⟩
  · intro ser₂
    unfold ToolGateController.get_context_size
    rw [htc ser, htc ser₂]
  · intro habsent
    have hzero : (ToolGateController.mk' all_tools config tik
        sizeOf_tool).token_count ser tools = 0 := by
      rw [htc ser]
      refine foldl_add_zeros _ 0 fun x hx => ?_
      rcases List.mem_map.mp hx with ⟨kv, hkv, hx'⟩
      rw [habsent kv hkv] at hx'
      simpa using hx'.symm
    unfold ToolGateController.get_context_size
    rw [hzero]
    simp

/-- C10 witness: requesting only names absent from the construction-time
catalog yields a context size of 0 with no raise, even under enforcement. -/
theorem c10_precomputed_sum_witness :
    (ToolGateController.mk' twoTools
        { task_type_allowlists := [], max_tools := 0, blocklist := [] }
        false (fun _ => 4000)).get_context_size stStrict (fun _ => 99999)
      [("zzz", mkTool "zzz" ["x-ops"])] (some true) = Except.ok 0 :=
  (c10_precomputed_sum twoTools
      { task_type_allowlists := [], max_tools := 0, blocklist := [] }
      false (fun _ => 4000) stStrict (fun _ => 99999)
      [("zzz", mkTool "zzz" ["x-ops"])] (some true) _ rfl
      (by decide)).2.2 (by decide)

/-- C4: whenever precedence resolution yields no labels (no truthy explicit
`task_type`, no non-empty `detected_task_types`) and the strict no-match
short-circuit does not apply, `TaskTypeFilter.apply` returns exactly the
input tools whose `task_types` does not contain the reserved label
`"meta-ops"`; tools with other tags are all retained. -/
theorem c4_meta_ops_default (f : TaskTypeFilter) (st : HttpServerSettings)
    (tools : Dict Tool) (context : FilterContext)
    (h1 : strTruthy context.task_type = false)
    (h2 : listOptTruthy context.detected_task_types = false)
    (hsc : strictNoMatch st context = false) :
    ∀ n tool, (n, tool) ∈ f.apply st tools context ↔
      (n, tool) ∈ tools ∧ "meta-ops" ∉ tool.task_types := by
  have hsel : selectTaskTypes st context = [] := by
    unfold selectTaskTypes
    cases st.intent_precedence <;> simp [h1, h2]
  have hnorm : f.normalize_task_types [] = [] := rfl
  intro n tool
  simp [TaskTypeFilter.apply, hsc, hsel, hnorm, List.mem_filter]

/-- C4 witness: with no task signal at all, the meta-tagged tool is
excluded and the others are retained. -/
theorem c4_meta_ops_default_witness :
    (("list_pools", mkTool "list_pools" ["storage-ops"])
        ∈ (TaskTypeFilter.ofConfig cfgStorage).apply stDefault threeTools
            { request_id := "r" })
    ∧ ("list_tools", mkTool "list_tools" ["meta-ops"])
        ∉ (TaskTypeFilter.ofConfig cfgStorage).apply stDefault threeTools
            { request_id := "r" } :=
  ⟨(c4_meta_ops_default (TaskTypeFilter.ofConfig cfgStorage) stDefault
      threeTools { request_id := "r" } rfl rfl rfl
      "list_pools" (mkTool "list_pools" ["storage-ops"])).mpr
      ⟨by decide, by decide⟩,
   fun h =>
    absurd ((c4_meta_ops_default (TaskTypeFilter.ofConfig cfgStorage) stDefault
      threeTools { request_id := "r" } rfl rfl rfl
      "list_tools" (mkTool "list_tools" ["meta-ops"])).mp h).2 (by decide)⟩

/-- C3: whenever the strict no-match short-circuit does not apply and the
filter resolves at least one label whose merged allowlist is non-empty,
`TaskTypeFilter.apply` returns exactly the input tools whose name is in the
merged allowlist and whose own `task_types` share at least one label with
the resolved labels. -/
theorem c3_allowlist_intersection (f : TaskTypeFilter)
    (st : HttpServerSettings) (tools : Dict Tool) (context : FilterContext)
    (hsc : strictNoMatch st context = false)
    (hne : f.normalize_task_types (selectTaskTypes st context) ≠ [])
    (hme : f.merge_allowlists
        (f.normalize_task_types (selectTaskTypes st context)) ≠ []) :
    ∀ n tool, (n, tool) ∈ f.apply st tools context ↔
      (n, tool) ∈ tools
      ∧ n ∈ f.merge_allowlists
          (f.normalize_task_types (selectTaskTypes st context))
      ∧ ∃ label ∈ f.normalize_task_types (selectTaskTypes st context),
          label ∈ tool.task_types := by
  have h1 : (f.normalize_task_types (selectTaskTypes st context) == []) = false := by
    cases h : f.normalize_task_types (selectTaskTypes st context) with
    | nil => exact absurd h hne
    | cons a t => rfl
  have h2 : (f.merge_allowlists
      (f.normalize_task_types (selectTaskTypes st context)) == []) = false := by
    cases h : f.merge_allowlists
        (f.normalize_task_types (selectTaskTypes st context)) with
    | nil => exact absurd h hme
    | cons a t => rfl
  intro n tool
  simp [TaskTypeFilter.apply, hsc, h1, h2, List.mem_filter, and_assoc]

/-- C3 witness: the spec's worked example — allowlist
`{"storage-ops": ["list_pools"]}`, tools `list_pools` (storage-ops) and
`create_user` (user-ops), explicit label `"storage"` (alias of
`storage-ops`) — keeps exactly `list_pools`. -/
theorem c3_allowlist_intersection_witness :
    (("list_pools", mkTool "list_pools" ["storage-ops"])
        ∈ (TaskTypeFilter.ofConfig cfgStorage).apply stDefault twoTools
            { task_type := some "storage", request_id := "req-1" })
    ∧ ("create_user", mkTool "create_user" ["user-ops"])
        ∉ (TaskTypeFilter.ofConfig cfgStorage).apply stDefault twoTools
            { task_type := some "storage", request_id := "req-1" } :=
  ⟨(c3_allowlist_intersection (TaskTypeFilter.ofConfig cfgStorage) stDefault
      twoTools { task_type := some "storage", request_id := "req-1" }
      rfl (by decide) (by decide)
      "list_pools" (mkTool "list_pools" ["storage-ops"])).mpr
      ⟨by decide, by decide, by decide⟩,
   fun h =>
    absurd ((c3_allowlist_intersection (TaskTypeFilter.ofConfig cfgStorage)
      stDefault twoTools { task_type := some "storage", request_id := "req-1" }
      rfl (by decide) (by decide)
      "create_user" (mkTool "create_user" ["user-ops"])).mp h).2.1
      (by decide)⟩

/-- C5 counterexample: with allowlist `{"storage-ops": ["list_pools"]}`,
strict policy and the unresolvable supplied label `"bogus"`, precedence
resolution yields a label whose merged allowlist is empty (the label fails
to resolve), yet the filter returns neither the empty set nor the full
input: it drops into the default meta-ops exclusion and returns the two
non-meta tools of the three-tool catalog. -/
theorem c5_counterexample :
    selectTaskTypes stStrict { task_type := some "bogus", request_id := "req-3" }
      = ["bogus"]
    ∧ (TaskTypeFilter.ofConfig cfgStorage).normalize_task_types ["bogus"] = []
    ∧ stStrict.strict_context_limit = true
    ∧ (TaskTypeFilter.ofConfig cfgStorage).apply stStrict threeTools
        { task_type := some "bogus", request_id := "req-3" } = twoTools
    ∧ twoTools ≠ []
    ∧ twoTools ≠ threeTools := by decide

/-- C5 amended: when the short-circuit does not apply and labels were
supplied, then (a) if at least one label resolves but the merged allowlist
is empty, the filter returns the empty set under strict/no-fallback policy
and the entire input otherwise, while (b) if every supplied label is
unresolvable, the filter instead behaves as if no label was resolved and
returns the tools not tagged `meta-ops`. -/
theorem c5_empty_allowlist (f : TaskTypeFilter) (st : HttpServerSettings)
    (tools : Dict Tool) (context : FilterContext)
    (hsc : strictNoMatch st context = false)
    (hsup : selectTaskTypes st context ≠ []) :
    (f.normalize_task_types (selectTaskTypes st context) ≠ [] →
      f.merge_allowlists
          (f.normalize_task_types (selectTaskTypes st context)) = [] →
      f.apply st tools context
        = if st.strict_context_limit || !st.intent_fallback_to_all then []
          else tools)
    ∧ (f.normalize_task_types (selectTaskTypes st context) = [] →
      f.apply st tools context
        = tools.filter fun kv => !(kv.2.task_types.contains "meta-ops")) := by
  constructor
  · intro hne hme
    have h1 : (f.normalize_task_types (selectTaskTypes st context) == [])
        = false := by
      cases h : f.normalize_task_types (selectTaskTypes st context) with
      | nil => exact absurd h hne
      | cons a t => rfl
    simp [TaskTypeFilter.apply, hsc, h1, hme]
  · intro hz
    simp [TaskTypeFilter.apply, hsc, hz]

/-- C5 witness: a resolvable label (`"storage-ops"`) whose configured
allowlist entry is empty, under strict policy, yields the empty set. -/
theorem c5_empty_allowlist_witness :
    (TaskTypeFilter.ofConfig [("storage-ops", [])]).apply stStrict twoTools
      { task_type := some "storage-ops", request_id := "req-7" } = [] := by
  have h := (c5_empty_allowlist (TaskTypeFilter.ofConfig [("storage-ops", [])])
      stStrict twoTools
      { task_type := some "storage-ops", request_id := "req-7" }
      rfl (by decide)).1 (by decide) (by decide)
  simpa using h

/-- Boolean prefix test agrees with the prefix relation on char lists. -/
theorem isPrefixOf_true_iff :
    ∀ (l₁ l₂ : List Char), l₁.isPrefixOf l₂ = true ↔ l₁ <+: l₂
  | [], l₂ => by simp
  | a :: as, [] => by simp
  | a :: as, b :: bs => by
    rw [List.isPrefixOf_cons₂, Bool.and_eq_true, beq_iff_eq,
      List.cons_prefix_cons]
    exact and_congr Iff.rfl (isPrefixOf_true_iff as bs)

/-- `containsSub` decides substring containment: the needle is an infix of
the haystack. -/
theorem containsSub_iff :
    ∀ (hay needle : List Char), containsSub hay needle = true ↔ needle <:+: hay
  | [], needle => by
    simp only [containsSub, List.isEmpty_iff, List.infix_nil]
  | c :: rest, needle => by
    rw [containsSub, Bool.or_eq_true, isPrefixOf_true_iff,
      containsSub_iff rest needle]
    constructor
    · rintro (hpre | hinf)
      · exact hpre.isInfix
      · rcases hinf with ⟨s, t, h⟩
        exact ⟨c :: s, t, by simp [h]⟩
    · rintro ⟨s, t, h⟩
      cases s with
      | nil => exact Or.inl ⟨t, by simpa using h⟩
      | cons x s' =>
        right
        rcases List.cons.injEq .. ▸ h with ⟨hx, hrest⟩
        exact ⟨s', t, by simpa using hrest⟩

/-- C9: `classify_intent` returns exactly the task-type labels of the
configured mapping one of whose keywords is a literal substring of the
lower-cased query, listed in the order the task types appear in the
mapping; several task types may be returned for one query. -/
theorem c9_keyword_classifier (keyword_mappings : Dict (List String))
    (query : String) :
    ((classify_intent keyword_mappings query).Sublist
        (keyword_mappings.map Prod.fst))
    ∧ ∀ t, t ∈ classify_intent keyword_mappings query ↔
        ∃ kws, (t, kws) ∈ keyword_mappings
          ∧ ∃ kw ∈ kws, kw.data <:+: (pyLower query).data := by
  constructor
  · exact (List.filter_sublist keyword_mappings).map Prod.fst
  · intro t
    simp only [classify_intent, List.mem_map, List.mem_filter,
      List.any_eq_true, containsSub_iff]
    constructor
    · rintro ⟨⟨n, kws⟩, ⟨hmem, hkw⟩, hfst⟩
      subst hfst
      exact ⟨kws, hmem, hkw⟩
    · rintro ⟨kws, hmem, hkw⟩
      exact ⟨(t, kws), ⟨hmem, hkw⟩, rfl⟩

/-- C9 witness: `"zfs pools"`-style query matches the storage keywords. -/
theorem c9_keyword_classifier_witness :
    "storage-ops" ∈ classify_intent mappingsPool "Show me my ZFS pools" :=
  ((c9_keyword_classifier mappingsPool "Show me my ZFS pools").2
    "storage-ops").mpr
    ⟨["pool"], by decide, "pool", by decide, (containsSub_iff _ _).mp (by decide)⟩

/-- Inserting into a list is a permutation of consing. -/
theorem insertLe_perm {α : Type} (le : α → α → Bool) (a : α) :
    ∀ l : List α, (insertLe le a l).Perm (a :: l)
  | [] => List.Perm.refl _
  | b :: t => by
    unfold insertLe
    by_cases h : le a b = true
    · simp [h]
    · simp only [h, if_false, Bool.false_eq_true]
      exact ((insertLe_perm le a t).cons b).trans (List.Perm.swap a b t)

/-- The stable sort permutes its input. -/
theorem stableSortBy_perm {α : Type} (le : α → α → Bool) :
    ∀ l : List α, (stableSortBy le l).Perm l
  | [] => List.Perm.refl _
  | a :: t =>
    (insertLe_perm le a (stableSortBy le t)).trans
      ((stableSortBy_perm le t).cons a)

/-- Inserting into a sorted list keeps it sorted, for a total transitive
boolean order. -/
theorem pairwise_insertLe {α : Type} (le : α → α → Bool)
    (total : ∀ a b, le a b = true ∨ le b a = true)
    (htrans : ∀ a b c, le a b = true → le b c = true → le a c = true)
    (a : α) :
    ∀ l : List α, l.Pairwise (fun x y => le x y = true) →
      (insertLe le a l).Pairwise (fun x y => le x y = true)
  | [], _ => by simp [insertLe]
  | b :: t, h => by
    rcases List.pairwise_cons.mp h with ⟨hb, ht⟩
    by_cases hab : le a b = true
    · simp only [insertLe, hab, if_true]
      refine List.pairwise_cons.mpr ⟨?_, h⟩
      intro x hx
      rcases List.mem_cons.mp hx with rfl | hxt
      · exact hab
      · exact htrans a b x hab (hb x hxt)
    · have hba : le b a = true := (total a b).resolve_left hab
      simp only [insertLe, hab, if_false, Bool.false_eq_true]
      refine List.pairwise_cons.mpr
        ⟨?_, pairwise_insertLe le total htrans a t ht⟩
      intro x hx
      have hx' : x = a ∨ x ∈ t := by
        have := (insertLe_perm le a t).mem_iff.mp hx
        simpa using this
      rcases hx' with rfl | hxt
      · exact hba
      · exact hb x hxt

/-- The stable sort is sorted, for a total transitive boolean order. -/
theorem pairwise_stableSortBy {α : Type} (le : α → α → Bool)
    (total : ∀ a b, le a b = true ∨ le b a = true)
    (htrans : ∀ a b c, le a b = true → le b c = true → le a c = true) :
    ∀ l : List α,
      (stableSortBy le l).Pairwise (fun x y => le x y = true)
  | [] => by simp [stableSortBy]
  | a :: t =>
    pairwise_insertLe le total htrans a _
      (pairwise_stableSortBy le total htrans t)

/-- A character is determined by its code point. -/
theorem char_toNat_inj {a b : Char} (h : a.toNat = b.toNat) : a = b :=
  Char.eq_of_val_eq (UInt32.toNat.inj h)

/-- Code-point comparison is transitive. -/
theorem charListLt_trans : ∀ (as bs cs : List Char),
    charListLt as bs = true → charListLt bs cs = true →
    charListLt as cs = true
  | [], [], _, h1, _ => by simp [charListLt] at h1
  | [], _ :: _, [], _, h2 => by simp [charListLt] at h2
  | [], _ :: _, _ :: _, _, _ => by simp [charListLt]
  | _ :: _, [], _, h1, _ => by simp [charListLt] at h1
  | _ :: _, _ :: _, [], _, h2 => by simp [charListLt] at h2
  | a :: as, b :: bs, c :: cs, h1, h2 => by
    simp only [charListLt] at h1 h2 ⊢
    by_cases hab : a.toNat < b.toNat
    · by_cases hbc : b.toNat < c.toNat
      · rw [if_pos (by omega)]
      · by_cases hcb : c.toNat < b.toNat
        · rw [if_neg hbc, if_pos hcb] at h2
          simp at h2
        · rw [if_pos (by omega)]
    · by_cases hba : b.toNat < a.toNat
      · rw [if_neg hab, if_pos hba] at h1
        simp at h1
      · rw [if_neg hab, if_neg hba] at h1
        by_cases hbc : b.toNat < c.toNat
        · rw [if_pos (by omega)]
        · by_cases hcb : c.toNat < b.toNat
          · rw [if_neg hbc, if_pos hcb] at h2
            simp at h2
          · rw [if_neg hbc, if_neg hcb] at h2
            rw [if_neg (by omega), if_neg (by omega)]
            exact charListLt_trans as bs cs h1 h2

/-- Code-point comparison is trichotomous. -/
theorem charListLt_total : ∀ (as bs : List Char),
    charListLt as bs = true ∨ charListLt bs as = true ∨ as = bs
  | [], [] => Or.inr (Or.inr rfl)
  | [], _ :: _ => Or.inl (by simp [charListLt])
  | _ :: _, [] => Or.inr (Or.inl (by simp [charListLt]))
  | a :: as, b :: bs => by
    rcases Nat.lt_trichotomy a.toNat b.toNat with h | h | h
    · refine Or.inl ?_
      simp only [charListLt]
      rw [if_pos h]
    · have hab : a = b := char_toNat_inj h
      subst hab
      rcases charListLt_total as bs with h' | h' | h'
      · refine Or.inl ?_
        simp only [charListLt]
        rw [if_neg (Nat.lt_irrefl _), if_neg (Nat.lt_irrefl _)]
        exact h'
      · refine Or.inr (Or.inl ?_)
        simp only [charListLt]
        rw [if_neg (Nat.lt_irrefl _), if_neg (Nat.lt_irrefl _)]
        exact h'
      · exact Or.inr (Or.inr (by rw [h']))
    · refine Or.inr (Or.inl ?_)
      simp only [charListLt]
      rw [if_pos h]

/-- The resource-filter sort key order is total. -/
theorem resourceLe_total :
    ∀ a b : String × Tool, resourceLe a b = true ∨ resourceLe b a = true := by
  intro a b
  unfold resourceLe
  rcases lt_trichotomy a.2.priority b.2.priority with h | h | h
  · right
    simp [h]
  · rcases charListLt_total a.1.data b.1.data with h' | h' | h'
    · left
      simp [h, h']
    · right
      simp [h, h']
    · left
      have heq : a.1 = b.1 := congrArg String.mk h'
      simp [h, heq]
  · left
    simp [h]

/-- The resource-filter sort key order is transitive. -/
theorem resourceLe_trans :
    ∀ a b c : String × Tool, resourceLe a b = true → resourceLe b c = true →
      resourceLe a c = true := by
  intro a b c h1 h2
  unfold resourceLe at h1 h2 ⊢
  simp only [Bool.or_eq_true, Bool.and_eq_true, decide_eq_true_eq,
    beq_iff_eq] at h1 h2 ⊢
  rcases h1 with h1 | ⟨h1p, h1n⟩
  · rcases h2 with h2 | ⟨h2p, _⟩
    · exact Or.inl (lt_trans h2 h1)
    · exact Or.inl (h2p ▸ h1)
  · rcases h2 with h2 | ⟨h2p, h2n⟩
    · exact Or.inl (by rw [h1p]; exact h2)
    · refine Or.inr ⟨h1p.trans h2p, ?_⟩
      rcases h1n with h1n | h1n
      · rcases h2n with h2n | h2n
        · exact Or.inl (charListLt_trans _ _ _ h1n h2n)
        · exact Or.inl (h2n ▸ h1n)
      · rcases h2n with h2n | h2n
        · exact Or.inl (h1n ▸ h2n)
        · exact Or.inr (h1n.trans h2n)

/-- C8: `ResourceFilter.apply` is the identity — not a reordered copy —
when the input is within the cap; past the cap it keeps exactly
`max_tools` entries forming a sorted-by-descending-priority (name-ascending
on ties) prefix that dominates every dropped entry, and the kept-plus-
dropped entries permute the input.  As a pure function it is deterministic
by construction. -/
theorem c8_resource_cap (f : ResourceFilter) (tools : Dict Tool) :
    (tools.length ≤ f.max_tools → f.apply tools = tools)
    ∧ (f.max_tools < tools.length →
        (f.apply tools).length = f.max_tools
        ∧ (f.apply tools).Pairwise (fun a b => resourceLe a b = true)
        ∧ ∃ dropped : Dict Tool,
            (f.apply tools ++ dropped).Perm tools
            ∧ ∀ a ∈ f.apply tools, ∀ b ∈ dropped, resourceLe a b = true) := by
  constructor
  · intro h
    simp [ResourceFilter.apply, h]
  · intro h
    have hnle : ¬ tools.length ≤ f.max_tools := not_le.mpr h
    have happ : f.apply tools
        = (stableSortBy resourceLe tools).take f.max_tools := by
      simp [ResourceFilter.apply, hnle]
    have hsorted : (stableSortBy resourceLe tools).Pairwise
        (fun a b => resourceLe a b = true) :=
      pairwise_stableSortBy resourceLe resourceLe_total resourceLe_trans tools
    have hperm : (stableSortBy resourceLe tools).Perm tools :=
      stableSortBy_perm resourceLe tools
    have hsplit : (stableSortBy resourceLe tools).take f.max_tools
        ++ (stableSortBy resourceLe tools).drop f.max_tools
        = stableSortBy resourceLe tools := List.take_append_drop _ _
    refine ⟨?_, ?_, ?_⟩
    · rw [happ, List.length_take, hperm.length_eq]
      exact Nat.min_eq_left (le_of_lt h)
    · rw [happ]
      exact List.Pairwise.sublist (List.take_sublist _ _) hsorted
    · refine ⟨(stableSortBy resourceLe tools).drop f.max_tools, ?_, ?_⟩
      · rw [happ, hsplit]
        exact hperm
      · rw [happ]
        have hpw := hsorted
        rw [← hsplit] at hpw
        exact fun a ha b hb => (List.pairwise_append.mp hpw).2.2 a ha b hb

/-- C8 witness: the spec's five-tool example with priorities
`[3, 1, 3, 0, 2]` and `max_tools = 3`, plus the within-cap no-op case. -/
theorem c8_resource_cap_witness :
    (3 < fiveTools.length ∧ (ResourceFilter.apply ⟨3⟩ fiveTools).length = 3)
    ∧ (fiveTools.length ≤ 12
        ∧ ResourceFilter.apply ⟨12⟩ fiveTools = fiveTools) :=
  ⟨⟨by decide, ((c8_resource_cap ⟨3⟩ fiveTools).2 (by decide)).1⟩,
   ⟨by decide, (c8_resource_cap ⟨12⟩ fiveTools).1 (by decide)⟩⟩

/-- Looking up the key just written by `dinsert` returns the new value. -/
theorem dlookup_dinsert {β : Type} :
    ∀ (d : Dict β) (k : String) (v : β), dlookup (dinsert d k v) k = some v
  | [], k, v => by simp [dinsert, dlookup]
  | (k', v') :: t, k, v => by
    by_cases h : (k' == k) = true
    · simp [dinsert, dlookup, h]
    · simp only [dinsert, h, Bool.false_eq_true, if_false]
      simp only [dlookup, h, Bool.false_eq_true, if_false]
      exact dlookup_dinsert t k v

/-- C1 counterexample: a strict no-match `tools/list` stores the *empty*
tool set for session `"S"`; a subsequent `tools/call` for `"list_pools"` —
a name absent from that stored set — does not return `METHOD_NOT_FOUND`:
the Python truthiness fallback `session_tools.get(sid) or get_all_tools()`
routes the empty cached set to the full registry and the call proceeds. -/
theorem c1_counterexample :
    dlookup strictNoMatchRun.session_tools "S" = some []
    ∧ dlookup ([] : Dict Tool) "list_pools" = none
    ∧ handle_tools_call_availability strictNoMatchRun.session_tools twoTools
        "S" (some "list_pools")
        = CallOutcome.proceeds (mkTool "list_pools" ["storage-ops"]) := by
  decide

/-- C1 amended: once `tools/list` has stored a NON-EMPTY filtered set for a
session, that set alone decides `tools/call` availability — a name in it
proceeds toward dispatch, a name absent from it yields `METHOD_NOT_FOUND`
(-32601); when no set is stored, or the stored set is empty, the full
unfiltered registry is the visible set; and every `tools/list` run
overwrites the session's entry with its freshly filtered set. -/
theorem c1_session_visibility (session_tools : Dict (Dict Tool))
    (registry_all : Dict Tool) (session_id tool_name : String) :
    (∀ ts, dlookup session_tools session_id = some ts → ts ≠ [] →
        handle_tools_call_availability session_tools registry_all session_id
            (some tool_name)
          = match dlookup ts tool_name with
            | some tool => CallOutcome.proceeds tool
            | none => CallOutcome.not_found METHOD_NOT_FOUND)
    ∧ (dlookup session_tools session_id = none
          ∨ dlookup session_tools session_id = some [] →
        handle_tools_call_availability session_tools registry_all session_id
            (some tool_name)
          = match dlookup registry_all tool_name with
            | some tool => CallOutcome.proceeds tool
            | none => CallOutcome.not_found METHOD_NOT_FOUND)
    ∧ ∀ (st : HttpServerSettings) (c : ToolGateController)
        (classifier : Option (Dict (List String)))
        (ser : Dict Tool → Nat) (ptt q hdr : Option String)
        (rid : String) (scopes : List String),
        dlookup (handle_tools_list st c classifier ser ptt q rid session_id
            scopes hdr session_tools).session_tools session_id
          = some (handle_tools_list st c classifier ser ptt q rid session_id
            scopes hdr session_tools).filtered := by
  refine ⟨?_, ?_, ?_⟩
  · intro ts hts hne
    unfold handle_tools_call_availability
    rw [hts]
    have hempty : ts.isEmpty = false := by
      cases ts with
      | nil => exact absurd rfl hne
      | cons a t => rfl
    simp only [hempty, Bool.false_eq_true, if_false]
    cases dlookup ts tool_name <;> rfl
  · rintro (h | h) <;>
      · unfold handle_tools_call_availability
        rw [h]
        try simp only [List.isEmpty, if_true]
        cases dlookup registry_all tool_name <;> rfl
  · intro st c classifier ser ptt q hdr rid scopes
    simp only [handle_tools_list]
    exact dlookup_dinsert _ _ _

/-- C1 witness: a non-empty stored set decides availability both ways, and
an absent session entry falls back to the registry. -/
theorem c1_session_visibility_witness :
    (handle_tools_call_availability
        [("S", [("t1", mkTool "t1" ["x-ops"])])] twoTools "S" (some "t1")
      = CallOutcome.proceeds (mkTool "t1" ["x-ops"]))
    ∧ (handle_tools_call_availability
        [("S", [("t1", mkTool "t1" ["x-ops"])])] twoTools "S"
          (some "list_pools")
      = CallOutcome.not_found METHOD_NOT_FOUND)
    ∧ (handle_tools_call_availability [] twoTools "Z" (some "list_pools")
      = CallOutcome.proceeds (mkTool "list_pools" ["storage-ops"])) :=
  ⟨((c1_session_visibility [("S", [("t1", mkTool "t1" ["x-ops"])])] twoTools
      "S" "t1").1 [("t1", mkTool "t1" ["x-ops"])] rfl (by decide)).trans rfl,
   ((c1_session_visibility [("S", [("t1", mkTool "t1" ["x-ops"])])] twoTools
      "S" "list_pools").1 [("t1", mkTool "t1" ["x-ops"])] rfl
      (by decide)).trans rfl,
   ((c1_session_visibility [] twoTools "Z" "list_pools").2.1
      (Or.inl rfl)).trans rfl⟩

/-- C6 counterexample: under `intent` precedence with classification
enabled, a query classifying to `[]` together with the resolvable explicit
header `"storage-ops"` does NOT fall back to the explicit label: the
handler nulls it, and the default-policy run returns both tools instead of
the allowlist intersection `{list_pools}` the explicit label would give. -/
theorem c6_counterexample :
    classify_intent mappingsPool "xyz-no-match" = []
    ∧ stDefault.intent_precedence = Precedence.intent
    ∧ stDefault.intent_classification_enabled = true
    ∧ headerWithEmptyClassification.filtered = twoTools
    ∧ headerWithEmptyClassification.filtered
        ≠ [("list_pools", mkTool "list_pools" ["storage-ops"])] := by
  decide

/-- C6 amended: for every `tools/list` request processed under `intent`
precedence with classification enabled and a truthy query present, the
handler discards the explicit task type before filtering: the whole outcome
is independent of the `X-Task-Type` header and the `task_type` param, and
the classifier's detected task types (whatever they are) are the only
labels handed to the filter. -/
theorem c6_intent_precedence (st : HttpServerSettings)
    (c : ToolGateController) (mappings : Dict (List String))
    (ser : Dict Tool → Nat) (ptt1 ptt2 q : Option String)
    (rid session_id : String) (scopes : List String)
    (hdr1 hdr2 : Option String) (sessions : Dict (Dict Tool))
    (hq : strTruthy q = true)
    (hen : st.intent_classification_enabled = true)
    (hprec : st.intent_precedence = Precedence.intent) :
    (handle_tools_list st c (some mappings) ser ptt1 q rid session_id scopes
        hdr1 sessions
      = handle_tools_list st c (some mappings) ser ptt2 q rid session_id
          scopes hdr2 sessions)
    ∧ (handle_tools_list st c (some mappings) ser ptt1 q rid session_id
        scopes hdr1 sessions).filtered
      = scopeFilterStep scopes
          (c.get_available_tools st
            { task_type := none
              client_id := none
              session_id := some session_id
              request_id := rid
              query := q
              detected_task_types :=
                some (classify_intent mappings (q.getD "")) }).1 := by
  constructor
  · unfold handle_tools_list
    simp [hq, hen, hprec]
  · unfold handle_tools_list
    simp [hq, hen, hprec]

/-- C6 witness: with a query present, the run with the explicit header
`"storage-ops"` equals the run with no explicit task type at all. -/
theorem c6_intent_precedence_witness :
    handle_tools_list stDefault gateTwo (some mappingsPool) (fun _ => 0)
        none (some "xyz-no-match") "req-2" "S" [] (some "storage-ops") []
      = handle_tools_list stDefault gateTwo (some mappingsPool) (fun _ => 0)
        none (some "xyz-no-match") "req-2" "S" [] none [] :=
  (c6_intent_precedence stDefault gateTwo mappingsPool (fun _ => 0) none none
    (some "xyz-no-match") "req-2" "S" [] (some "storage-ops") none []
    (by decide) rfl rfl).1
